import Mathlib

/-!
Verification of the Protocol Frame Engine of the rs232-mqtt-bridge firmware:
the checksum subsystem (src/main/crc_utils.c), the frame synchronizer
(src/main/uart_handler.c) and the field-extraction engine
(src/main/data_parser.c), shallowly embedded in Lean 4.

Modelling conventions:
* C byte buffers (`const uint8_t *data` with a length) are `List Nat`;
  every entry of a real buffer is `< 256` because the C element type is
  `uint8_t`.  Reading `data[i]` is `List.getD data i 0`.
* Machine integers are `Nat` (or `Int` for signed values); every C
  assignment into a `uintN_t` variable is rendered with an explicit
  `% 2 ^ N`, so overflow behaves exactly as in the source.
* FreeRTOS tick time is an abstract `Nat` time-unit; `pdMS_TO_TICKS` is
  the identity on these units, and `xTaskGetTickCount()` is passed in as
  an explicit `now` argument.
* C `double` arithmetic is modelled over `ℚ` (exact); the modelled
  results agree with IEEE semantics for all values relevant to the
  claims (integral scale factors, small integral raw values).
-/

namespace RS232

/-! ## Checksum subsystem (src/main/crc_utils.c) -/

/-- Eight applications of a CRC bit-step, the body of the
`for (int j = 0; j < 8; j++)` inner loop of every CRC routine. -/
def bits8 (f : Nat → Nat) (x : Nat) : Nat :=
  f (f (f (f (f (f (f (f x)))))))

/-- `crc_calc_crc8`: polynomial 0x07, init 0x00, MSB-first. -/
def crc_calc_crc8 (data : List Nat) : Nat :=
  data.foldl (fun crc b =>
    bits8 (fun crc =>
      if crc &&& 0x80 ≠ 0 then ((crc <<< 1) ^^^ 0x07) % 2 ^ 8
      else (crc <<< 1) % 2 ^ 8) ((crc ^^^ b) % 2 ^ 8)) 0x00

/-- `crc_calc_crc8_ccitt`: polynomial 0x8D, init 0x00, MSB-first. -/
def crc_calc_crc8_ccitt (data : List Nat) : Nat :=
  data.foldl (fun crc b =>
    bits8 (fun crc =>
      if crc &&& 0x80 ≠ 0 then ((crc <<< 1) ^^^ 0x8D) % 2 ^ 8
      else (crc <<< 1) % 2 ^ 8) ((crc ^^^ b) % 2 ^ 8)) 0x00

/-- `crc_calc_xor`: running XOR. -/
def crc_calc_xor (data : List Nat) : Nat :=
  data.foldl (fun r b => (r ^^^ b) % 2 ^ 8) 0

/-- `crc_calc_sum8`: running 8-bit sum. -/
def crc_calc_sum8 (data : List Nat) : Nat :=
  data.foldl (fun r b => (r + b) % 2 ^ 8) 0

/-- `crc_calc_sum16`: running 16-bit sum. -/
def crc_calc_sum16 (data : List Nat) : Nat :=
  data.foldl (fun r b => (r + b) % 2 ^ 16) 0

/-- `crc_calc_crc16_ibm`: polynomial 0x8005 (reflected 0xA001),
init 0x0000, LSB-first. -/
def crc_calc_crc16_ibm (data : List Nat) : Nat :=
  data.foldl (fun crc b =>
    bits8 (fun crc =>
      if crc &&& 0x0001 ≠ 0 then ((crc >>> 1) ^^^ 0xA001) % 2 ^ 16
      else (crc >>> 1) % 2 ^ 16) ((crc ^^^ b) % 2 ^ 16)) 0x0000

/-- `crc_calc_crc16_ccitt`: polynomial 0x1021, init 0xFFFF, MSB-first. -/
def crc_calc_crc16_ccitt (data : List Nat) : Nat :=
  data.foldl (fun crc b =>
    bits8 (fun crc =>
      if crc &&& 0x8000 ≠ 0 then ((crc <<< 1) ^^^ 0x1021) % 2 ^ 16
      else (crc <<< 1) % 2 ^ 16) ((crc ^^^ (b <<< 8)) % 2 ^ 16)) 0xFFFF

/-- `crc_calc_crc16_modbus`: polynomial 0x8005 (reflected 0xA001),
init 0xFFFF, LSB-first. -/
def crc_calc_crc16_modbus (data : List Nat) : Nat :=
  data.foldl (fun crc b =>
    bits8 (fun crc =>
      if crc &&& 0x0001 ≠ 0 then ((crc >>> 1) ^^^ 0xA001) % 2 ^ 16
      else (crc >>> 1) % 2 ^ 16) ((crc ^^^ b) % 2 ^ 16)) 0xFFFF

/-- `crc_calc_crc16_xmodem`: polynomial 0x1021, init 0x0000, MSB-first. -/
def crc_calc_crc16_xmodem (data : List Nat) : Nat :=
  data.foldl (fun crc b =>
    bits8 (fun crc =>
      if crc &&& 0x8000 ≠ 0 then ((crc <<< 1) ^^^ 0x1021) % 2 ^ 16
      else (crc <<< 1) % 2 ^ 16) ((crc ^^^ (b <<< 8)) % 2 ^ 16)) 0x0000

/-- `crc_calc_crc32`: reflected polynomial 0xEDB88320, init 0xFFFFFFFF,
LSB-first, final bit inversion (`return ~crc`). -/
def crc_calc_crc32 (data : List Nat) : Nat :=
  (data.foldl (fun crc b =>
    bits8 (fun crc =>
      if crc &&& 0x00000001 ≠ 0 then ((crc >>> 1) ^^^ 0xEDB88320) % 2 ^ 32
      else (crc >>> 1) % 2 ^ 32) ((crc ^^^ b) % 2 ^ 32)) 0xFFFFFFFF) ^^^ 0xFFFFFFFF

/-- `crc_calc_crc32c`: reflected polynomial 0x82F63B78, init 0xFFFFFFFF,
LSB-first, final bit inversion. -/
def crc_calc_crc32c (data : List Nat) : Nat :=
  (data.foldl (fun crc b =>
    bits8 (fun crc =>
      if crc &&& 0x00000001 ≠ 0 then ((crc >>> 1) ^^^ 0x82F63B78) % 2 ^ 32
      else (crc >>> 1) % 2 ^ 32) ((crc ^^^ b) % 2 ^ 32)) 0xFFFFFFFF) ^^^ 0xFFFFFFFF

/-- `crc_type_t` from protocol_def.h. -/
inductive CrcType where
  | none_ | xor_lrc | sum8 | sum16
  | crc8 | crc8_ccitt
  | crc16_ibm | crc16_ccitt | crc16_modbus | crc16_xmodem
  | crc32 | crc32c
deriving DecidableEq, Repr

/-- `crc_calculate`: dispatch over `crc_type_t`. -/
def crc_calculate (t : CrcType) (data : List Nat) : Nat :=
  match t with
  | .none_ => 0
  | .xor_lrc => crc_calc_xor data
  | .sum8 => crc_calc_sum8 data
  | .sum16 => crc_calc_sum16 data
  | .crc8 => crc_calc_crc8 data
  | .crc8_ccitt => crc_calc_crc8_ccitt data
  | .crc16_ibm => crc_calc_crc16_ibm data
  | .crc16_ccitt => crc_calc_crc16_ccitt data
  | .crc16_modbus => crc_calc_crc16_modbus data
  | .crc16_xmodem => crc_calc_crc16_xmodem data
  | .crc32 => crc_calc_crc32 data
  | .crc32c => crc_calc_crc32c data

/-- `crc_get_size`: digest width in bytes per `crc_type_t`. -/
def crc_get_size (t : CrcType) : Nat :=
  match t with
  | .none_ => 0
  | .xor_lrc | .sum8 | .crc8 | .crc8_ccitt => 1
  | .sum16 | .crc16_ibm | .crc16_ccitt | .crc16_modbus | .crc16_xmodem => 2
  | .crc32 | .crc32c => 4

/-! ### Spec-side checksum reference (spec.md §4.1 table)

These definitions follow the words of the specification table, not the
source: a generic byte-at-a-time bit-serial CRC engine parameterised by
width, init, polynomial (given in reflected form when the table says
"Reflected"), reflection mode and final XOR, plus the three running
XOR/add rows. They exist to be compared with the source translation
above (claim C1). -/

/-- One bit step of the generic spec CRC engine. For the reflected mode
the state advances LSB-first with the reflected polynomial, otherwise
MSB-first with the plain polynomial, truncated to the table width. -/
def specCrcBit (width poly : Nat) (refl : Bool) (crc : Nat) : Nat :=
  if refl then
    if crc &&& 1 ≠ 0 then ((crc >>> 1) ^^^ poly) % 2 ^ width
    else (crc >>> 1) % 2 ^ width
  else
    if crc &&& 2 ^ (width - 1) ≠ 0 then ((crc <<< 1) ^^^ poly) % 2 ^ width
    else (crc <<< 1) % 2 ^ width

/-- Generic spec CRC: fold each byte into the state (at the top of the
register for MSB-first mode), run 8 bit steps, and apply the final XOR
(invert all bits) when the table row says so. -/
def specCrc (width init poly : Nat) (refl finalXor : Bool)
    (data : List Nat) : Nat :=
  let r := data.foldl (fun crc b =>
    bits8 (specCrcBit width poly refl)
      ((crc ^^^ (if refl then b else b <<< (width - 8))) % 2 ^ width)) init
  if finalXor then r ^^^ (2 ^ width - 1) else r

/-- Spec row "XOR/LRC": running XOR, width 8. -/
def specXorLrc (data : List Nat) : Nat :=
  data.foldl (fun r b => (r ^^^ b) % 2 ^ 8) 0

/-- Spec row "SUM8": running add, wraps mod 256. -/
def specSum8 (data : List Nat) : Nat :=
  data.foldl (fun r b => (r + b) % 256) 0

/-- Spec row "SUM16": running add, wraps mod 65536. -/
def specSum16 (data : List Nat) : Nat :=
  data.foldl (fun r b => (r + b) % 65536) 0

/-- The whole spec table of §4.1, one algorithm per `crc_type_t`
(algorithm "none" returns 0 per the §4.1 contract). -/
def specTableCompute (t : CrcType) (data : List Nat) : Nat :=
  match t with
  | .none_ => 0
  | .xor_lrc => specXorLrc data
  | .sum8 => specSum8 data
  | .sum16 => specSum16 data
  | .crc8 => specCrc 8 0x00 0x07 false false data
  | .crc8_ccitt => specCrc 8 0x00 0x8D false false data
  | .crc16_ibm => specCrc 16 0x0000 0xA001 true false data
  | .crc16_ccitt => specCrc 16 0xFFFF 0x1021 false false data
  | .crc16_modbus => specCrc 16 0xFFFF 0xA001 true false data
  | .crc16_xmodem => specCrc 16 0x0000 0x1021 false false data
  | .crc32 => specCrc 32 0xFFFFFFFF 0xEDB88320 true true data
  | .crc32c => specCrc 32 0xFFFFFFFF 0x82F63B78 true true data

/-- ASCII bytes of the reference vector "123456789". -/
def checkVector : List Nat := [0x31, 0x32, 0x33, 0x34, 0x35, 0x36, 0x37, 0x38, 0x39]

/-- A well-formed Modbus RTU request frame (slave 1, function 3, start 0,
quantity 10) with its on-wire CRC-16-Modbus in the trailing two bytes
(little-endian). -/
def modbusRefFrame : List Nat := [0x01, 0x03, 0x00, 0x00, 0x00, 0x0A, 0xC5, 0xCD]

/-! ## Protocol configuration (src/main/protocol_def.h) -/

/-- `custom_protocol_config_t`. Field widths in the C struct:
frame_length/stx_value/etx_value/crc_offset/crc_end_offset/timeout_ms are
`uint16_t`, length_field_offset/length_field_size/crc_start_offset are
`uint8_t`. -/
structure CustomProtocolConfig where
  frame_length : Nat
  stx_enable : Bool
  stx_value : Nat
  etx_enable : Bool
  etx_value : Nat
  length_field_enable : Bool
  length_field_offset : Nat
  length_field_size : Nat
  length_includes_header : Bool
  crc_type : CrcType
  crc_offset : Nat
  crc_start_offset : Nat
  crc_end_offset : Nat
  timeout_ms : Nat
deriving DecidableEq, Repr

/-- `modbus_rtu_config_t`. -/
structure ModbusRtuConfig where
  slave_address : Nat
  function_codes : Nat
  inter_frame_delay : Nat
  response_timeout : Nat
deriving DecidableEq, Repr

/-- `nmea_config_t` (the sentence/talker filters are not read by the
frame engine; only `validate_checksum` is). -/
structure NmeaConfig where
  sentence_filter_count : Nat
  sentence_filters : List (List Nat)
  validate_checksum : Bool
  talker_id_filter : List Nat
deriving DecidableEq, Repr

/-- `protocol_config_data_t`: the tagged union of protocol variants.
The C union members not belonging to the active `protocol_type_t` tag
are never read, so the sum type is a faithful rendering. The two IEC
variants carry no data read by the frame engine. -/
inductive ProtocolConfig where
  | custom (cfg : CustomProtocolConfig)
  | modbus_rtu (cfg : ModbusRtuConfig)
  | modbus_ascii
  | nmea_0183 (cfg : NmeaConfig)
  | iec_60870_101
  | iec_60870_104
deriving DecidableEq, Repr

/-- `FRAME_BUF_SIZE` from protocol_def.h. -/
def FRAME_BUF_SIZE : Nat := 512

/-- The modulus of C `size_t` arithmetic (64-bit target). -/
def SIZE_T_MOD : Nat := 2 ^ 64

/-- Value of one ASCII hex digit, or `none` for a non-digit. -/
def hexDigitVal (c : Nat) : Option Nat :=
  if 48 ≤ c ∧ c ≤ 57 then some (c - 48)
  else if 65 ≤ c ∧ c ≤ 70 then some (c - 55)
  else if 97 ≤ c ∧ c ≤ 102 then some (c - 87)
  else none

/-- `strtol(hex, NULL, 16)` applied to a two-character string, as the
source does for ASCII-hex checksum pairs: parse greedily from the left,
returning the digits parsed so far (0 when the first character is not a
hex digit). -/
def strtolHexPair (c1 c2 : Nat) : Nat :=
  match hexDigitVal c1 with
  | none => 0
  | some d1 =>
    match hexDigitVal c2 with
    | none => d1
    | some d2 => 16 * d1 + d2

/-! ## Frame synchronizer (src/main/uart_handler.c) -/

/-- `verify_crc(data, len)` with the active protocol configuration made
an explicit argument. `data` stands for the byte range `data[0..len)`,
so `len` is `data.length`. The `size_t` subtraction `crc_end - crc_start`
is rendered with its wrap-around modulus. An out-of-range
`crc_calculate` source range (possible only after that wrap-around,
undefined behaviour in C) is modelled as reading the in-bounds suffix. -/
def verify_crc (proto : ProtocolConfig) (data : List Nat) : Bool :=
  let len := data.length
  match proto with
  | .custom cfg =>
    if cfg.crc_type = .none_ then true
    else
      let crc_start := cfg.crc_start_offset
      let crc_end :=
        if cfg.crc_end_offset = 0 ∨ cfg.crc_end_offset > len then cfg.crc_offset
        else cfg.crc_end_offset
      let crc_len := (crc_end + SIZE_T_MOD - crc_start) % SIZE_T_MOD
      if crc_len = 0 ∨ crc_start ≥ len then true
      else
        let calcv := crc_calculate cfg.crc_type ((data.drop crc_start).take crc_len)
        let crc_size := crc_get_size cfg.crc_type
        if cfg.crc_offset + crc_size > len then false
        else
          let recv := (List.range crc_size).foldl
            (fun r i => r ||| (data.getD (cfg.crc_offset + i) 0 <<< (i * 8))) 0
          calcv == recv
  | .modbus_rtu _ =>
    if len < 4 then false
    else
      let calcv := crc_calc_crc16_modbus (data.take (len - 2))
      let recv := data.getD (len - 2) 0 ||| (data.getD (len - 1) 0 <<< 8)
      calcv == recv
  | .modbus_ascii =>
    if len < 9 then false
    else
      -- for (size_t i = 1; i < len - 4; i += 2): i = 1, 3, ..., (len-4)/2 items
      let lrc := (List.range' 1 ((len - 4) / 2) 2).foldl
        (fun lrc i =>
          (lrc + strtolHexPair (data.getD i 0) (data.getD (i + 1) 0) % 256) % 256) 0
      let lrc := (256 - lrc) % 256  -- lrc = (~lrc + 1) & 0xFF
      let recv := strtolHexPair (data.getD (len - 4) 0) (data.getD (len - 3) 0) % 256
      lrc == recv
  | .nmea_0183 cfg =>
    if ¬ cfg.validate_checksum then true
    else
      -- for (size_t i = 1; i < len - 3; i++): first asterisk, if any
      match (List.range' 1 (len - 3 - 1)).find? (fun i => data.getD i 0 == 0x2A) with
      | some i =>
        let calcv := (List.range' 1 (i - 1)).foldl
          (fun c j => (c ^^^ data.getD j 0) % 256) 0
        let recv := strtolHexPair (data.getD (i + 1) 0) (data.getD (i + 2) 0) % 256
        calcv == recv
      | none => false
  | .iec_60870_101 =>
    if len = 1 ∧ data.getD 0 0 = 0xE5 then true
    else if 5 ≤ len ∧ data.getD 0 0 = 0x10 then
      let calcv := (data.getD 1 0 + data.getD 2 0) % 256
      calcv == data.getD 3 0 && data.getD 4 0 == 0x16
    else if 6 ≤ len ∧ data.getD 0 0 = 0x68 then
      let frame_len := data.getD 1 0
      if data.getD 2 0 ≠ frame_len ∨ data.getD 3 0 ≠ 0x68 then false
      else
        let calcv := (List.range' 4 frame_len).foldl
          (fun c i => (c + data.getD i 0) % 256) 0
        let cs_pos := 4 + frame_len
        if cs_pos ≥ len - 1 then false
        else calcv == data.getD cs_pos 0 && data.getD (cs_pos + 1) 0 == 0x16
    else false
  | .iec_60870_104 => true

/-- `is_frame_complete(data, len)` with the protocol configuration, the
current tick count `now` and the last-byte timestamp `last_rx` made
explicit arguments (`pdMS_TO_TICKS` is the identity on abstract
time-units). -/
def is_frame_complete (proto : ProtocolConfig) (data : List Nat)
    (now last_rx : Nat) : Bool :=
  let len := data.length
  if len = 0 then false
  else match proto with
  | .custom cfg =>
    -- fixed frame length
    if cfg.frame_length > 0 ∧ len ≥ cfg.frame_length then true
    else
      -- STX/ETX check
      let etxHit : Bool :=
        if cfg.stx_enable ∧ cfg.etx_enable then
          if cfg.etx_value ≤ 0xFF then
            data.getD (len - 1) 0 == cfg.etx_value % 256
          else
            decide (len ≥ 2) && data.getD (len - 2) 0 == (cfg.etx_value >>> 8) % 256
              && data.getD (len - 1) 0 == cfg.etx_value % 256
        else false
      if etxHit then true
      else
        -- length field check
        if cfg.length_field_enable ∧ len > cfg.length_field_offset then
          let frame_len :=
            if cfg.length_field_size = 1 then data.getD cfg.length_field_offset 0
            else if cfg.length_field_size = 2 ∧ len > cfg.length_field_offset + 1 then
              data.getD cfg.length_field_offset 0 |||
                (data.getD (cfg.length_field_offset + 1) 0 <<< 8)
            else 0
          if cfg.length_includes_header then decide (len ≥ frame_len)
          else decide (len ≥ frame_len + cfg.length_field_offset + cfg.length_field_size)
        else false
  | .modbus_rtu cfg =>
    if len ≥ 4 then
      let timeout := if cfg.inter_frame_delay = 0 then 4 else cfg.inter_frame_delay
      decide (now - last_rx ≥ timeout)
    else false
  | .modbus_ascii =>
    decide (len ≥ 9) && data.getD 0 0 == 0x3A
      && data.getD (len - 2) 0 == 0x0D && data.getD (len - 1) 0 == 0x0A
  | .nmea_0183 _ =>
    decide (len ≥ 6) && data.getD 0 0 == 0x24
      && data.getD (len - 2) 0 == 0x0D && data.getD (len - 1) 0 == 0x0A
  | .iec_60870_101 =>
    if len = 1 ∧ data.getD 0 0 = 0xE5 then true
    else if (5 ≤ len ∧ data.getD 0 0 = 0x10) ∧ data.getD (len - 1) 0 = 0x16 then true
    else if 6 ≤ len ∧ data.getD 0 0 = 0x68 then
      let frame_len := data.getD 1 0
      if data.getD 2 0 = frame_len ∧ data.getD 3 0 = 0x68 then
        decide (len ≥ 4 + frame_len + 2) && data.getD (len - 1) 0 == 0x16
      else false
    else false
  | .iec_60870_104 => false

/-! ### The reception task state (uart_handler.c statics)

The byte-reception task owns the statics `s_rx_count`, `s_error_count`,
`s_receiving`, `s_proto_cfg`, `s_frame_buf`/`s_frame_idx` and
`s_last_rx`. They are gathered into one state record; the registered
frame callback `s_callback` is modelled by recording every frame handed
to it in `delivered`. -/
structure RxState where
  rx_count : Nat
  error_count : Nat
  receiving : Bool
  proto : ProtocolConfig
  frame_buf : List Nat
  last_rx : Nat
  delivered : List (List Nat)
deriving DecidableEq, Repr

/-- `process_frame(data, len)`: verify the checksum; on failure count an
error and drop the frame, on success count the frame, mark reception
active and invoke the callback. -/
def process_frame (st : RxState) (data : List Nat) : RxState :=
  if verify_crc st.proto data then
    { st with rx_count := st.rx_count + 1, receiving := true,
              delivered := st.delivered ++ [data] }
  else
    { st with error_count := st.error_count + 1 }

/-- The `UART_DATA` branch of `uart_rx_task`: stamp `s_last_rx`, append
the received bytes to the frame buffer while `s_frame_idx <
FRAME_BUF_SIZE` (excess bytes are not stored), then test frame
completion and, when complete, process the frame and reset the buffer.
`now` is the tick count returned by `xTaskGetTickCount()`. -/
def uart_rx_on_data (st : RxState) (now : Nat) (bytes : List Nat) : RxState :=
  if bytes.length = 0 then st
  else
    let st := { st with last_rx := now }
    let buf := (st.frame_buf ++ bytes).take FRAME_BUF_SIZE
    let st := { st with frame_buf := buf }
    if is_frame_complete st.proto buf now st.last_rx then
      { process_frame st buf with frame_buf := [] }
    else st

/-- The `UART_FIFO_OVF` / `UART_BUFFER_FULL` branch of `uart_rx_task`:
flush, reset the frame buffer and count an error. -/
def uart_rx_on_overflow (st : RxState) : RxState :=
  { st with frame_buf := [], error_count := st.error_count + 1 }

/-- The `UART_PARITY_ERR` / `UART_FRAME_ERR` branch of `uart_rx_task`. -/
def uart_rx_on_parity_err (st : RxState) : RxState :=
  { st with error_count := st.error_count + 1 }

/-- The per-protocol idle-drain timeout of the `xQueueReceive` timeout
branch of `uart_rx_task` (Custom: `timeout_ms`, default 100; Modbus
RTU: `inter_frame_delay`, default 10; otherwise 100). -/
def idle_timeout_of (proto : ProtocolConfig) : Nat :=
  match proto with
  | .custom cfg => if cfg.timeout_ms = 0 then 100 else cfg.timeout_ms
  | .modbus_rtu cfg => if cfg.inter_frame_delay = 0 then 10 else cfg.inter_frame_delay
  | _ => 100

/-- The `xQueueReceive` timeout branch of `uart_rx_task`: with a
non-empty buffer whose idle time reached the protocol timeout, deliver
the buffer when it has at least 3 bytes, then reset it; afterwards clear
`s_receiving` after 1000 time-units of silence. -/
def uart_rx_on_idle (st : RxState) (now : Nat) : RxState :=
  let st :=
    if st.frame_buf.length > 0 then
      if now - st.last_rx ≥ idle_timeout_of st.proto then
        let st := if st.frame_buf.length ≥ 3 then process_frame st st.frame_buf else st
        { st with frame_buf := [] }
      else st
    else st
  if st.receiving ∧ now - st.last_rx > 1000 then { st with receiving := false }
  else st

/-- `uart_handler_update_protocol(cfg)`: install the new protocol
configuration and reset the frame buffer, discarding the partially
accumulated frame (the `cfg == NULL` guard cannot fire in the model). -/
def uart_handler_update_protocol (st : RxState) (cfg : ProtocolConfig) : RxState :=
  { st with proto := cfg, frame_buf := [] }

/-! ### Provenance-instrumented reception model (for claim C8)

The same task loop, instrumented with ghost provenance: the state keeps
a configuration generation counter, every buffered byte is paired with
the generation under which it was ingested, and
`uart_handler_update_protocol` bumps the generation when it resets the
buffer. Erasing the first components of the pairs yields exactly the
model above. -/
structure TRxState where
  gen : Nat
  rx_count : Nat
  error_count : Nat
  receiving : Bool
  proto : ProtocolConfig
  frame_buf : List (Nat × Nat)
  last_rx : Nat
  delivered : List (List (Nat × Nat))
deriving DecidableEq, Repr

/-- `process_frame` on provenance-tagged frames. -/
def t_process_frame (st : TRxState) (data : List (Nat × Nat)) : TRxState :=
  if verify_crc st.proto (data.map Prod.snd) then
    { st with rx_count := st.rx_count + 1, receiving := true,
              delivered := st.delivered ++ [data] }
  else
    { st with error_count := st.error_count + 1 }

/-- The `UART_DATA` branch on the instrumented state: incoming bytes are
tagged with the current configuration generation. -/
def t_rx_on_data (st : TRxState) (now : Nat) (bytes : List Nat) : TRxState :=
  if bytes.length = 0 then st
  else
    let st := { st with last_rx := now }
    let buf := (st.frame_buf ++ bytes.map (fun b => (st.gen, b))).take FRAME_BUF_SIZE
    let st := { st with frame_buf := buf }
    if is_frame_complete st.proto (buf.map Prod.snd) now st.last_rx then
      { t_process_frame st buf with frame_buf := [] }
    else st

/-- The overflow branch on the instrumented state. -/
def t_rx_on_overflow (st : TRxState) : TRxState :=
  { st with frame_buf := [], error_count := st.error_count + 1 }

/-- The idle-timeout branch on the instrumented state. -/
def t_rx_on_idle (st : TRxState) (now : Nat) : TRxState :=
  let st :=
    if st.frame_buf.length > 0 then
      if now - st.last_rx ≥ idle_timeout_of st.proto then
        let st := if st.frame_buf.length ≥ 3 then t_process_frame st st.frame_buf else st
        { st with frame_buf := [] }
      else st
    else st
  if st.receiving ∧ now - st.last_rx > 1000 then { st with receiving := false }
  else st

/-- `uart_handler_update_protocol` on the instrumented state: the
generation is bumped exactly when the configuration is replaced. -/
def t_update_protocol (st : TRxState) (cfg : ProtocolConfig) : TRxState :=
  { st with proto := cfg, frame_buf := [], gen := st.gen + 1 }

/-- The events the reception task reacts to. -/
inductive RxEvent where
  | data (now : Nat) (bytes : List Nat)
  | idle (now : Nat)
  | overflow
  | update (cfg : ProtocolConfig)
deriving Repr

/-- One reaction of the instrumented reception task. -/
def t_step (st : TRxState) : RxEvent → TRxState
  | .data now bytes => t_rx_on_data st now bytes
  | .idle now => t_rx_on_idle st now
  | .overflow => t_rx_on_overflow st
  | .update cfg => t_update_protocol st cfg

/-- A run of the instrumented reception task over an event trace. -/
def t_run (st : TRxState) (evs : List RxEvent) : TRxState :=
  evs.foldl t_step st

/-- Provenance invariant: all buffered bytes carry the current
configuration generation, and every frame ever handed to the callback
was accumulated under one single generation. -/
def GenInvariant (st : TRxState) : Prop :=
  (∀ p ∈ st.frame_buf, p.1 = st.gen) ∧
  (∀ f ∈ st.delivered, ∀ p ∈ f, ∀ q ∈ f, p.1 = q.1)

/-! ## Field extraction engine (src/main/data_parser.c) -/

/-- `field_definition_t` (protocol_def.h). `scale_factor` is `uint16_t`
(scale × 1000), `offset_value` is `int16_t` (offset × 100), the other
members are `uint8_t`/`uint16_t`. -/
structure FieldDefinition where
  field_type : Nat
  byte_order : Nat
  start_offset : Nat
  bit_offset : Nat
  bit_length : Nat
  scale_factor : Nat
  offset_value : Int
  name_length : Nat
  name_index : Nat
deriving DecidableEq, Repr

/-- The all-zero `field_definition_t`. -/
def FieldDefinition.zero : FieldDefinition := ⟨0, 0, 0, 0, 0, 0, 0, 0, 0⟩

/-- `data_definition_t`. -/
structure DataDefinition where
  field_count : Nat
  data_offset : Nat
  fields : List FieldDefinition
  field_names : List Nat
  names_length : Nat
deriving DecidableEq, Repr

/-- Decimal ASCII digits, fuel-driven so that it reduces inside the
kernel; the fuel only needs to exceed the digit count. -/
def natDecimalAux : Nat → Nat → List Nat
  | 0, _ => []
  | fuel + 1, n =>
    if n < 10 then [48 + n]
    else natDecimalAux fuel (n / 10) ++ [48 + n % 10]

/-- Decimal ASCII digits of `n`, as printf renders `%d`. -/
def natDecimal (n : Nat) : List Nat := natDecimalAux (n + 1) n

/-- The fallback name `snprintf(name, max_len, "Field%d", index)`. -/
def fieldFallbackName (index : Nat) : List Nat :=
  [0x46, 0x69, 0x65, 0x6C, 0x64] ++ natDecimal index

/-- `data_parser_get_field_name(def, index, name, MAX_FIELD_NAME_LEN)`
as invoked by the parser: the produced character content (the C code
null-terminates a 32-byte buffer, so at most 31 characters are copied
from the names blob). -/
def data_parser_get_field_name (dd : DataDefinition) (index : Nat) : List Nat :=
  if index ≥ dd.field_count then []
  else
    let fd := dd.fields.getD index FieldDefinition.zero
    if fd.name_index < dd.names_length then
      ((((dd.field_names.drop fd.name_index).take
          (dd.names_length - fd.name_index)).takeWhile (fun c => c ≠ 0)).take 31)
    else
      fieldFallbackName index

/-- `read_bytes(data, offset, size, big_endian)` where `data` is the
payload pointer `raw_data + base`: assemble `size` bytes into a
`uint64_t` honoring byte order. -/
def read_bytes (buf : List Nat) (base offset size : Nat) (big_endian : Bool) : Nat :=
  if big_endian then
    (List.range size).foldl
      (fun v i => ((v <<< 8) ||| buf.getD (base + offset + i) 0) % 2 ^ 64) 0
  else
    (List.range size).foldl
      (fun v i => (v ||| (buf.getD (base + offset + i) 0 <<< (i * 8))) % 2 ^ 64) 0

/-- C cast `(int8_t)` of a byte value. -/
def toInt8 (v : Nat) : Int :=
  if v % 2 ^ 8 < 2 ^ 7 then (v % 2 ^ 8 : Nat) else (v % 2 ^ 8 : Nat) - 2 ^ 8

/-- C cast `(int16_t)` of a 64-bit value. -/
def toInt16 (v : Nat) : Int :=
  if v % 2 ^ 16 < 2 ^ 15 then (v % 2 ^ 16 : Nat) else (v % 2 ^ 16 : Nat) - 2 ^ 16

/-- C cast `(int32_t)` of a 64-bit value. -/
def toInt32 (v : Nat) : Int :=
  if v % 2 ^ 32 < 2 ^ 31 then (v % 2 ^ 32 : Nat) else (v % 2 ^ 32 : Nat) - 2 ^ 32

/-- C cast `(int64_t)` of a 64-bit value. -/
def toInt64 (v : Nat) : Int :=
  if v % 2 ^ 64 < 2 ^ 63 then (v % 2 ^ 64 : Nat) else (v % 2 ^ 64 : Nat) - 2 ^ 64

/-- Exact rational value of an IEEE-754 binary32 bit pattern
(`memcpy(&out->value.f32, &bits, 4)`); Inf/NaN patterns, which carry no
rational value, are modelled as 0. -/
def f32ToRat (bits : Nat) : ℚ :=
  let b := bits % 2 ^ 32
  let s : ℚ := if b / 2 ^ 31 = 1 then -1 else 1
  let e : Nat := b / 2 ^ 23 % 2 ^ 8
  let m : Nat := b % 2 ^ 23
  if e = 255 then 0
  else if e = 0 then s * ((m : ℚ) / 2 ^ 23) * (2 : ℚ) ^ (-126 : ℤ)
  else s * (1 + (m : ℚ) / 2 ^ 23) * (2 : ℚ) ^ ((e : ℤ) - 127)

/-- Exact rational value of an IEEE-754 binary64 bit pattern; Inf/NaN
modelled as 0. -/
def f64ToRat (bits : Nat) : ℚ :=
  let b := bits % 2 ^ 64
  let s : ℚ := if b / 2 ^ 63 = 1 then -1 else 1
  let e : Nat := b / 2 ^ 52 % 2 ^ 11
  let m : Nat := b % 2 ^ 52
  if e = 2047 then 0
  else if e = 0 then s * ((m : ℚ) / 2 ^ 52) * (2 : ℚ) ^ (-1022 : ℤ)
  else s * (1 + (m : ℚ) / 2 ^ 52) * (2 : ℚ) ^ ((e : ℤ) - 1023)

/-- Uppercase hex digit character, as `sprintf("%02X")` renders one
nibble. -/
def hexChar (n : Nat) : Nat := if n < 10 then 48 + n else 55 + n

/-- The observable content of the C union `field_value_t`: the member
last written, or `zero` for the all-zero (zero-initialised) union. The
code never reads back a member other than the one it wrote. `f32`/`f64`
carry the exact rational value of the stored IEEE bit pattern. -/
inductive FieldValue where
  | zero
  | b (v : Bool)
  | u8 (v : Nat) | i8 (v : Int)
  | u16 (v : Nat) | i16 (v : Int)
  | u32 (v : Nat) | i32 (v : Int)
  | u64 (v : Nat) | i64 (v : Int)
  | f32 (v : ℚ) | f64 (v : ℚ)
  | str (s : List Nat)
deriving DecidableEq, Repr

/-- `parsed_field_t`. `scaled_value` (a C `double`) is modelled over ℚ. -/
structure ParsedField where
  name : List Nat
  type : Nat
  value : FieldValue
  scaled_value : ℚ
  crc_valid : Bool
deriving DecidableEq, Repr

/-- A zero-initialised `parsed_field_t`. -/
def ParsedField.zeroInit : ParsedField := ⟨[], 0, .zero, 0, false⟩

/-- `apply_scale(raw, field)`: scale is `scale_factor / 1000.0`, offset
is `offset_value / 100.0`, and a zero scale is replaced by 1.0. -/
def apply_scale (raw : ℚ) (fd : FieldDefinition) : ℚ :=
  let scale : ℚ := (fd.scale_factor : ℚ) / 1000
  let off : ℚ := (fd.offset_value : ℚ) / 100
  let scale := if scale = 0 then 1 else scale
  raw * scale + off

/-- The `switch (fd->field_type)` of `data_parser_parse_frame`: decode
one field from the payload (`buf` at `base = data_offset`, payload
length `data_len`), returning the union member written (`none` for the
`default` arm, which writes nothing) and `raw_val`. The BCD and
hex-string loops run `min byte_len (data_len - start_offset)` times,
the rendering of their bounded C loop conditions. -/
def parse_field_value (fd : FieldDefinition) (buf : List Nat)
    (base data_len : Nat) : Option FieldValue × ℚ :=
  if fd.field_type = 0x00 then
    let byte := buf.getD (base + fd.start_offset) 0
    let v := (byte >>> fd.bit_offset) &&& 0x01
    (some (.b (v == 1)), if v == 1 then 1 else 0)
  else if fd.field_type = 0x01 then
    let v := buf.getD (base + fd.start_offset) 0
    (some (.u8 v), (v : ℚ))
  else if fd.field_type = 0x02 then
    let v := toInt8 (buf.getD (base + fd.start_offset) 0)
    (some (.i8 v), (v : ℚ))
  else if fd.field_type = 0x03 then
    let v := read_bytes buf base fd.start_offset 2 (fd.byte_order ≠ 0) % 2 ^ 16
    (some (.u16 v), (v : ℚ))
  else if fd.field_type = 0x04 then
    let v := toInt16 (read_bytes buf base fd.start_offset 2 (fd.byte_order ≠ 0))
    (some (.i16 v), (v : ℚ))
  else if fd.field_type = 0x05 then
    let v := read_bytes buf base fd.start_offset 4 (fd.byte_order ≠ 0) % 2 ^ 32
    (some (.u32 v), (v : ℚ))
  else if fd.field_type = 0x06 then
    let v := toInt32 (read_bytes buf base fd.start_offset 4 (fd.byte_order ≠ 0))
    (some (.i32 v), (v : ℚ))
  else if fd.field_type = 0x07 then
    let v := read_bytes buf base fd.start_offset 8 (fd.byte_order ≠ 0)
    (some (.u64 v), (v : ℚ))
  else if fd.field_type = 0x08 then
    let v := toInt64 (read_bytes buf base fd.start_offset 8 (fd.byte_order ≠ 0))
    (some (.i64 v), (v : ℚ))
  else if fd.field_type = 0x10 then
    let bits := read_bytes buf base fd.start_offset 4 (fd.byte_order ≠ 0) % 2 ^ 32
    let v := f32ToRat bits
    (some (.f32 v), v)
  else if fd.field_type = 0x11 then
    let bits := read_bytes buf base fd.start_offset 8 (fd.byte_order ≠ 0)
    let v := f64ToRat bits
    (some (.f64 v), v)
  else if fd.field_type = 0x20 then
    let byte_len := (fd.bit_length + 7) / 8
    let result := (List.range (min byte_len (data_len - fd.start_offset))).foldl
      (fun r j =>
        let byte := buf.getD (base + fd.start_offset + j) 0
        (r * 100 + ((byte >>> 4) * 10 + (byte &&& 0x0F))) % 2 ^ 64) 0
    (some (.u64 result), (result : ℚ))
  else if fd.field_type = 0x30 then
    let str_len := min (fd.bit_length / 8) 63
    let str_len := if fd.start_offset + str_len > data_len then data_len - fd.start_offset else str_len
    (some (.str ((List.range str_len).map (fun j => buf.getD (base + fd.start_offset + j) 0))), 0)
  else if fd.field_type = 0x31 then
    let byte_len := min (fd.bit_length / 8) 31
    let chars := (List.range (min byte_len (data_len - fd.start_offset))).foldl
      (fun acc j =>
        let byte := buf.getD (base + fd.start_offset + j) 0
        acc ++ [hexChar ((byte >>> 4) % 16), hexChar (byte &&& 0x0F)]) []
    (some (.str chars), 0)
  else if fd.field_type = 0x40 then
    let v := read_bytes buf base fd.start_offset 4 (fd.byte_order ≠ 0) % 2 ^ 32
    (some (.u32 v), (v : ℚ))
  else if fd.field_type = 0x41 then
    let v := read_bytes buf base fd.start_offset 8 (fd.byte_order ≠ 0)
    (some (.u64 v), (v : ℚ))
  else (none, 0)

/-- One iteration of the `for (i = 0; i < count; i++)` loop of
`data_parser_parse_frame`: set name and type, skip the decode when
`start_offset >= data_len` (leaving `value` and `scaled_value` as they
were in the caller's array), otherwise decode and apply scaling (strings
get `scaled_value = 0`). -/
def parse_one (dd : DataDefinition) (buf : List Nat) (data_len : Nat)
    (i : Nat) (old : ParsedField) : ParsedField :=
  let fd := dd.fields.getD i FieldDefinition.zero
  let out : ParsedField :=
    { old with name := data_parser_get_field_name dd i, type := fd.field_type }
  if fd.start_offset ≥ data_len then out
  else
    let dec := parse_field_value fd buf dd.data_offset data_len
    let out := match dec.1 with
      | some v => { out with value := v }
      | none => out
    if fd.field_type ≠ 0x30 ∧ fd.field_type ≠ 0x31 then
      { out with scaled_value := apply_scale dec.2 fd }
    else
      { out with scaled_value := 0 }

/-- `data_parser_parse_frame(raw_data, raw_len, fields, max_fields)`
with the live `s_def` made an explicit argument. `buf` is the underlying
reception buffer, of which the first `raw_len` entries are the received
frame — the C code indexes `raw_data` without further bounds checks, so
reads are modelled against `buf`, not against a truncation of it.
`fields` is the caller's output array; the loop writes `fields[i]`
exactly once for each `i < count` and reads no other entry, so it is
rendered as an index-wise map. Returns `none` for the -1 error returns,
otherwise the updated array and the returned count. -/
def data_parser_parse_frame (dd : DataDefinition) (buf : List Nat)
    (raw_len : Nat) (fields : List ParsedField) (max_fields : Nat) :
    Option (List ParsedField × Nat) :=
  if dd.field_count = 0 then none
  else if dd.data_offset ≥ raw_len then none
  else
    let data_len := raw_len - dd.data_offset
    let count := min dd.field_count max_fields
    some (fields.mapIdx
      (fun i old => if i < count then parse_one dd buf data_len i old else old),
      count)

/-! ## Spec-side statements for the frame-completion claims -/

/-- Custom-protocol completion as the words of claim C3 / spec §4.2
read: (1) a nonzero configured `frame_length` reached; (2) the
configured 1- or 2-byte ETX matches the buffer's tail; (3) an enabled
length field at the configured offset (1 or 2 bytes, little-endian),
interpreted per `length_includes_header`, satisfied by the buffer size
(reading the field requires its bytes to be present). -/
def customCompleteSpec (cfg : CustomProtocolConfig) (data : List Nat) : Bool :=
  let len := data.length
  (decide (cfg.frame_length ≠ 0) && decide (len ≥ cfg.frame_length))
  || (cfg.etx_enable &&
      (if cfg.etx_value ≤ 0xFF then
        decide (1 ≤ len) && data.getD (len - 1) 0 == cfg.etx_value
       else
        decide (2 ≤ len) && data.getD (len - 2) 0 == cfg.etx_value >>> 8
          && data.getD (len - 1) 0 == cfg.etx_value % 2 ^ 8))
  || (cfg.length_field_enable
      && decide (cfg.length_field_offset + cfg.length_field_size ≤ len)
      && (let fieldVal :=
            if cfg.length_field_size = 1 then data.getD cfg.length_field_offset 0
            else data.getD cfg.length_field_offset 0 |||
              (data.getD (cfg.length_field_offset + 1) 0 <<< 8)
          if cfg.length_includes_header then decide (len ≥ fieldVal)
          else decide (len ≥ cfg.length_field_offset + cfg.length_field_size + fieldVal)))

/-- Custom-protocol completion as the source actually decides it, in
the same priority-ordered disjunction shape as claim C3 but amended:
rule (2) fires only when BOTH `stx_enable` and `etx_enable` are set, and
rule (3) needs only `len > length_field_offset`; a 2-byte length field
whose second byte has not yet arrived — and any `length_field_size`
other than 1 or 2 — is read as zero. -/
def customCompleteAmended (cfg : CustomProtocolConfig) (data : List Nat) : Bool :=
  let len := data.length
  decide (len ≠ 0) &&
  ((decide (cfg.frame_length > 0) && decide (len ≥ cfg.frame_length))
   || (cfg.stx_enable && cfg.etx_enable &&
       (if cfg.etx_value ≤ 0xFF then
         data.getD (len - 1) 0 == cfg.etx_value % 256
        else
         decide (len ≥ 2) && data.getD (len - 2) 0 == (cfg.etx_value >>> 8) % 256
           && data.getD (len - 1) 0 == cfg.etx_value % 256))
   || (cfg.length_field_enable && decide (len > cfg.length_field_offset)
       && (let fieldVal :=
             if cfg.length_field_size = 1 then data.getD cfg.length_field_offset 0
             else if cfg.length_field_size = 2 ∧ len > cfg.length_field_offset + 1 then
               data.getD cfg.length_field_offset 0 |||
                 (data.getD (cfg.length_field_offset + 1) 0 <<< 8)
             else 0
           if cfg.length_includes_header then decide (len ≥ fieldVal)
           else decide (len ≥ fieldVal + cfg.length_field_offset + cfg.length_field_size))))

/-- Byte width of the multi-byte numeric field types (u16/i16,
u32/i32/f32/timestamp, u64/i64/f64/timestamp-ms); `none` for the
single-byte and variable-length types. -/
def numericWidth (t : Nat) : Option Nat :=
  match t with
  | 0x03 | 0x04 => some 2
  | 0x05 | 0x06 | 0x10 | 0x40 => some 4
  | 0x07 | 0x08 | 0x11 | 0x41 => some 8
  | _ => none

/-- All bytes of a tagged frame carry one single generation. -/
def SingleGen (f : List (Nat × Nat)) : Prop :=
  ∀ p ∈ f, ∀ q ∈ f, p.1 = q.1

/-! # Theorems -/

set_option maxRecDepth 100000 in
/-- C1: every checksum algorithm of the §4.1 table computes, on every
input, exactly what the published parameterisation in the table
prescribes; CRC-32 of the ASCII bytes "123456789" is 0xCBF43926; and for
the reference Modbus RTU frame, `crc_calc_crc16_modbus` over all but the
last two bytes equals the little-endian value of the trailing two
bytes. -/
theorem claim_C1_checksums :
    (∀ t data, crc_calculate t data = specTableCompute t data) ∧
    crc_calculate .crc32 checkVector = 0xCBF43926 ∧
    crc_calc_crc16_modbus (modbusRefFrame.take (modbusRefFrame.length - 2)) =
      modbusRefFrame.getD (modbusRefFrame.length - 2) 0 |||
        (modbusRefFrame.getD (modbusRefFrame.length - 1) 0 <<< 8) := by
  refine ⟨fun t data => ?_, by rfl, by rfl⟩
  cases t <;> rfl

/-- C4: under Modbus RTU, `is_frame_complete` holds exactly when the
buffer holds at least 4 bytes and the elapsed idle time reaches the
configured inter-frame delay (4 time-units when configured as 0); and a
buffer of fewer than 4 bytes is never delivered to the frame callback,
even by the idle-drain path (its checksum verification fails first). -/
theorem claim_C4_modbus_rtu_completion :
    (∀ cfg data (now last : Nat),
      is_frame_complete (.modbus_rtu cfg) data now last =
        (decide (data.length ≥ 4) &&
          decide (now - last ≥
            (if cfg.inter_frame_delay = 0 then 4 else cfg.inter_frame_delay)))) ∧
    (∀ (st : RxState) cfg (now : Nat), st.proto = .modbus_rtu cfg →
      st.frame_buf.length < 4 →
      (uart_rx_on_idle st now).delivered = st.delivered ∧
      (uart_rx_on_idle st now).rx_count = st.rx_count) := by
  constructor
  · intro cfg data now last
    simp only [is_frame_complete]
    rcases data with _ | ⟨b, rest⟩
    · simp
    · simp only [List.length_cons, if_neg (Nat.succ_ne_zero rest.length)]
      split
      · next h => simp [h]
      · next h => simp [Nat.lt_of_not_le (by simpa using h)]
  · intro st cfg now hp hlen
    have hv : verify_crc st.proto st.frame_buf = false := by
      rw [hp]; simp [verify_crc, hlen]
    unfold uart_rx_on_idle
    dsimp only
    split
    · split
      · split
        · simp [process_frame, hv]
          split <;> simp
        · split <;> simp
      · split <;> simp
    · split <;> simp

/-- C4 witness: a 4-byte buffer after exactly the default 4-unit silence
completes, a 3-byte buffer or a 3-unit silence does not, and the idle
drain of a 3-byte Modbus RTU buffer delivers nothing. -/
theorem claim_C4_modbus_rtu_completion_witness :
    is_frame_complete (.modbus_rtu ⟨1, 0, 0, 1000⟩) [1, 2, 3, 4] 4 0 = true ∧
    is_frame_complete (.modbus_rtu ⟨1, 0, 0, 1000⟩) [1, 2, 3] 100 0 = false ∧
    is_frame_complete (.modbus_rtu ⟨1, 0, 0, 1000⟩) [1, 2, 3, 4] 3 0 = false ∧
    (uart_rx_on_idle ⟨0, 0, false, .modbus_rtu ⟨1, 0, 0, 1000⟩, [1, 2, 3], 0, []⟩
      100).delivered = [] := by
  refine ⟨?_, ?_, ?_, ?_⟩
  · rw [claim_C4_modbus_rtu_completion.1]; decide
  · rw [claim_C4_modbus_rtu_completion.1]; decide
  · rw [claim_C4_modbus_rtu_completion.1]; decide
  · exact (claim_C4_modbus_rtu_completion.2
      ⟨0, 0, false, .modbus_rtu ⟨1, 0, 0, 1000⟩, [1, 2, 3], 0, []⟩
      ⟨1, 0, 0, 1000⟩ 100 rfl (by decide)).1

/-- C5: a completed frame whose checksum verification fails increments
the error counter by one and leaves every other part of the reception
state untouched — the callback is not invoked, the received-frame
counter is unchanged, and the synchronizer keeps running. -/
theorem claim_C5_crc_failure_isolated (st : RxState) (data : List Nat)
    (h : verify_crc st.proto data = false) :
    process_frame st data = { st with error_count := st.error_count + 1 } := by
  simp [process_frame, h]

/-- C5 witness: a 3-byte Modbus RTU buffer fails verification, and
processing it only bumps the error counter. -/
theorem claim_C5_crc_failure_isolated_witness :
    verify_crc (ProtocolConfig.modbus_rtu ⟨1, 0, 0, 1000⟩) [1, 2, 3] = false ∧
    process_frame ⟨7, 2, true, .modbus_rtu ⟨1, 0, 0, 1000⟩, [9], 5, [[4]]⟩ [1, 2, 3] =
      ⟨7, 3, true, .modbus_rtu ⟨1, 0, 0, 1000⟩, [9], 5, [[4]]⟩ :=
  ⟨by decide,
   (claim_C5_crc_failure_isolated
     ⟨7, 2, true, .modbus_rtu ⟨1, 0, 0, 1000⟩, [9], 5, [[4]]⟩
     [1, 2, 3] (by decide)).trans (by decide)⟩

/-- C10: for the Custom protocol with a checksum type other than none,
a degenerate resolved checksum range — resolved end equal to
`crc_start_offset` (zero length) or `crc_start_offset` at or beyond the
frame length — makes `verify_crc` accept the frame unconditionally. -/
theorem claim_C10_degenerate_range_accepts (cfg : CustomProtocolConfig)
    (data : List Nat) (hne : cfg.crc_type ≠ .none_)
    (hdeg : (if cfg.crc_end_offset = 0 ∨ cfg.crc_end_offset > data.length
              then cfg.crc_offset else cfg.crc_end_offset) = cfg.crc_start_offset ∨
            cfg.crc_start_offset ≥ data.length) :
    verify_crc (.custom cfg) data = true := by
  unfold verify_crc
  dsimp only
  rw [if_neg hne]
  rw [if_pos]
  rcases hdeg with h | h
  · left
    rw [h]
    simp [SIZE_T_MOD]
  · right
    exact h

/-- C10 witness: a Custom configuration with XOR checksum whose resolved
range has zero length accepts a frame regardless of its bytes. -/
theorem claim_C10_degenerate_range_accepts_witness :
    verify_crc (.custom ⟨0, false, 0, false, 0, false, 0, 0, false,
      .xor_lrc, 9, 5, 5, 0⟩) [1, 2, 3, 4, 5, 6, 7, 8, 9, 10] = true :=
  claim_C10_degenerate_range_accepts _ _ (by decide) (by decide)

/-- Helper: the `UART_DATA` branch when the appended-and-truncated
buffer is not a complete frame. -/
theorem ingest_incomplete_eq (st : RxState) (now : Nat) (bytes : List Nat)
    (hne : bytes.length ≠ 0)
    (hnc : is_frame_complete st.proto
      ((st.frame_buf ++ bytes).take FRAME_BUF_SIZE) now now = false) :
    uart_rx_on_data st now bytes =
      { st with last_rx := now,
                frame_buf := (st.frame_buf ++ bytes).take FRAME_BUF_SIZE } := by
  unfold uart_rx_on_data
  rw [if_neg hne]
  dsimp only
  rw [if_neg (by rw [hnc]; exact Bool.false_ne_true)]

set_option maxRecDepth 100000 in
/-- C2 counterexample: ingesting one byte into a full 512-byte
accumulation buffer (an all-disabled Custom configuration, so the buffer
is not a complete frame) drops the byte but, contrary to the claim,
neither increments the error counter nor resets the buffer. -/
theorem claim_C2_overflow_counterexample :
    (uart_rx_on_data
        ⟨0, 0, false,
         .custom ⟨0, false, 0, false, 0, false, 0, 0, false, .none_, 0, 0, 0, 0⟩,
         List.replicate 512 1, 0, []⟩ 5 [7]).error_count = 0 ∧
    (uart_rx_on_data
        ⟨0, 0, false,
         .custom ⟨0, false, 0, false, 0, false, 0, 0, false, .none_, 0, 0, 0, 0⟩,
         List.replicate 512 1, 0, []⟩ 5 [7]).frame_buf ≠ [] := by
  have htake : (List.replicate 512 (1 : Nat) ++ [7]).take FRAME_BUF_SIZE =
      List.replicate 512 1 := by
    have h := List.take_left (List.replicate 512 (1 : Nat)) [7]
    rw [List.length_replicate] at h
    exact h
  have hnc : is_frame_complete
      (.custom ⟨0, false, 0, false, 0, false, 0, 0, false, .none_, 0, 0, 0, 0⟩)
      (List.replicate 512 (1 : Nat)) 5 5 = false := by
    decide
  have hrw := ingest_incomplete_eq
    ⟨0, 0, false,
     .custom ⟨0, false, 0, false, 0, false, 0, 0, false, .none_, 0, 0, 0, 0⟩,
     List.replicate 512 1, 0, []⟩ 5 [7]
    (by decide) (by dsimp only; rw [htake]; exact hnc)
  rw [hrw]
  refine ⟨rfl, ?_⟩
  dsimp only
  rw [htake]
  intro hcontra
  have := congrArg List.length hcontra
  rw [List.length_replicate] at this
  exact absurd this (by decide)

/-- C2 (amended): `ingest` appends the incoming bytes, silently dropping
whatever exceeds the buffer capacity, and — when the resulting buffer is
not a complete frame — changes nothing else: in particular an
accumulation-buffer overflow neither counts an error nor resets the
buffer. Counting an error and resetting the buffer is the reaction to
the driver-reported overflow events, not to the accumulation-buffer
bound. -/
theorem claim_C2_amended_ingest_truncates (st : RxState) (now : Nat)
    (bytes : List Nat) (hne : bytes ≠ [])
    (hnc : is_frame_complete st.proto
      ((st.frame_buf ++ bytes).take FRAME_BUF_SIZE) now now = false) :
    uart_rx_on_data st now bytes =
      { st with last_rx := now,
                frame_buf := (st.frame_buf ++ bytes).take FRAME_BUF_SIZE } ∧
    uart_rx_on_overflow st =
      { st with frame_buf := [], error_count := st.error_count + 1 } := by
  constructor
  · exact ingest_incomplete_eq st now bytes (by simpa using hne) hnc
  · rfl

/-- C2 amended witness: appending two bytes to a one-byte buffer under
an all-disabled Custom configuration. -/
theorem claim_C2_amended_ingest_truncates_witness :
    uart_rx_on_data
      ⟨0, 0, false,
       .custom ⟨0, false, 0, false, 0, false, 0, 0, false, .none_, 0, 0, 0, 0⟩,
       [1], 0, []⟩ 9 [2, 3] =
      ⟨0, 0, false,
       .custom ⟨0, false, 0, false, 0, false, 0, 0, false, .none_, 0, 0, 0, 0⟩,
       [1, 2, 3], 9, []⟩ :=
  ((claim_C2_amended_ingest_truncates
      ⟨0, 0, false,
       .custom ⟨0, false, 0, false, 0, false, 0, 0, false, .none_, 0, 0, 0, 0⟩,
       [1], 0, []⟩ 9 [2, 3] (by decide) (by decide)).1).trans (by decide)

/-- `t_process_frame` preserves the provenance invariant when the frame
it is handed is single-generation. -/
theorem t_process_frame_geninv {st : TRxState} {tf : List (Nat × Nat)}
    (h : GenInvariant st) (hf : SingleGen tf) :
    GenInvariant (t_process_frame st tf) ∧
    (t_process_frame st tf).frame_buf = st.frame_buf ∧
    (t_process_frame st tf).gen = st.gen := by
  unfold t_process_frame
  split
  · refine ⟨⟨h.1, ?_⟩, rfl, rfl⟩
    intro f hm
    rcases List.mem_append.1 hm with hm | hm
    · exact h.2 f hm
    · rcases List.mem_singleton.1 hm with rfl
      exact hf
  · exact ⟨⟨h.1, h.2⟩, rfl, rfl⟩

/-- The `UART_DATA` branch preserves the provenance invariant. -/
theorem t_rx_on_data_geninv {st : TRxState} (now : Nat) (bytes : List Nat)
    (h : GenInvariant st) : GenInvariant (t_rx_on_data st now bytes) := by
  unfold t_rx_on_data
  split
  · exact h
  · dsimp only
    set buf := (st.frame_buf ++ bytes.map (fun b => (st.gen, b))).take FRAME_BUF_SIZE
      with hbufdef
    have hbuf : ∀ p ∈ buf, p.1 = st.gen := by
      intro p hp
      have hp2 := List.take_subset _ _ hp
      rcases List.mem_append.1 hp2 with hm | hm
      · exact h.1 p hm
      · rcases List.mem_map.1 hm with ⟨b, _, rfl⟩
        rfl
    have h2 : GenInvariant { st with last_rx := now, frame_buf := buf } :=
      ⟨hbuf, h.2⟩
    split
    · have hsg : SingleGen buf :=
        fun p hp q hq => (hbuf p hp).trans (hbuf q hq).symm
      have h3 := t_process_frame_geninv h2 hsg
      exact ⟨by intro p hp; simp at hp, h3.1.2⟩
    · exact h2

/-- The idle-timeout branch preserves the provenance invariant. -/
theorem t_rx_on_idle_geninv {st : TRxState} (now : Nat)
    (h : GenInvariant st) : GenInvariant (t_rx_on_idle st now) := by
  unfold t_rx_on_idle
  dsimp only
  have key : ∀ st2 : TRxState, GenInvariant st2 →
      GenInvariant (if st2.receiving = true ∧ now - st2.last_rx > 1000
        then { st2 with receiving := false } else st2) := by
    intro st2 h2
    split
    · exact ⟨h2.1, h2.2⟩
    · exact h2
  apply key
  split
  · split
    · split
      · have hsg : SingleGen st.frame_buf :=
          fun p hp q hq => ((h.1 p hp).trans (h.1 q hq).symm)
        have h3 := t_process_frame_geninv h hsg
        exact ⟨by intro p hp; simp at hp, h3.1.2⟩
      · exact ⟨by intro p hp; simp at hp, h.2⟩
    · exact h
  · exact h

/-- The driver-overflow branch preserves the provenance invariant. -/
theorem t_rx_on_overflow_geninv {st : TRxState}
    (h : GenInvariant st) : GenInvariant (t_rx_on_overflow st) :=
  ⟨by intro p hp; simp [t_rx_on_overflow] at hp, h.2⟩

/-- Configuration replacement preserves the provenance invariant. -/
theorem t_update_protocol_geninv {st : TRxState} (cfg : ProtocolConfig)
    (h : GenInvariant st) : GenInvariant (t_update_protocol st cfg) :=
  ⟨by intro p hp; simp [t_update_protocol] at hp, h.2⟩

/-- Every step of the instrumented reception task preserves the
provenance invariant. -/
theorem t_step_geninv {st : TRxState} (ev : RxEvent)
    (h : GenInvariant st) : GenInvariant (t_step st ev) := by
  cases ev with
  | data now bytes => exact t_rx_on_data_geninv now bytes h
  | idle now => exact t_rx_on_idle_geninv now h
  | overflow => exact t_rx_on_overflow_geninv h
  | update cfg => exact t_update_protocol_geninv cfg h

/-- A whole run of the instrumented reception task preserves the
provenance invariant. -/
theorem t_run_geninv {st : TRxState} (evs : List RxEvent)
    (h : GenInvariant st) : GenInvariant (t_run st evs) := by
  induction evs generalizing st with
  | nil => exact h
  | cons ev evs ih => exact ih (t_step_geninv ev h)

/-- C8: installing a new protocol configuration empties the accumulation
buffer and makes the supplied configuration the active one; in the
provenance-instrumented model the configuration generation advances,
every buffered byte always carries the current generation, and hence
every frame ever handed to the callback was accumulated entirely under
one single configuration generation — no delivered frame mixes bytes
from two configurations. -/
theorem claim_C8_hot_reconfig_discards :
    (∀ (st : RxState) cfg,
      (uart_handler_update_protocol st cfg).frame_buf = [] ∧
      (uart_handler_update_protocol st cfg).proto = cfg) ∧
    (∀ (st : TRxState) cfg,
      (t_update_protocol st cfg).frame_buf = [] ∧
      (t_update_protocol st cfg).proto = cfg ∧
      (t_update_protocol st cfg).gen = st.gen + 1) ∧
    (∀ (st : TRxState) (evs : List RxEvent), GenInvariant st →
      GenInvariant (t_run st evs) ∧
      ∀ f ∈ (t_run st evs).delivered, SingleGen f) :=
  ⟨fun _ _ => ⟨rfl, rfl⟩,
   fun _ _ => ⟨rfl, rfl, rfl⟩,
   fun _ evs h => ⟨t_run_geninv evs h, (t_run_geninv evs h).2⟩⟩

/-- Helper: an if-then-else returning `true` on a decidable condition is
a Boolean disjunction. -/
theorem ite_true_or {p : Prop} [Decidable p] (b : Bool) :
    (if p then true else b) = (decide p || b) := by
  by_cases h : p <;> simp [h]

/-- Helper: an if-then-else returning `false` on a decidable condition
is a Boolean conjunction. -/
theorem ite_false_and {p : Prop} [Decidable p] (b : Bool) :
    (if p then b else false) = (decide p && b) := by
  by_cases h : p <;> simp [h]

/-- C3 counterexample: with STX disabled but a 1-byte ETX of 0x03
enabled, a buffer ending in 0x03 satisfies the claim's condition (2) —
the configured ETX matches the buffer's tail — yet the source does not
complete the frame, because it additionally requires `stx_enable`. -/
theorem claim_C3_custom_completion_counterexample :
    customCompleteSpec
      ⟨0, false, 0, true, 3, false, 0, 0, false, .none_, 0, 0, 0, 0⟩ [3] = true ∧
    is_frame_complete
      (.custom ⟨0, false, 0, true, 3, false, 0, 0, false, .none_, 0, 0, 0, 0⟩)
      [3] 0 0 = false := by
  decide

/-- C3 (amended): the source's Custom-protocol completion is exactly the
priority-ordered disjunction of the claim, amended in two points forced
by the code: rule (2) fires only when BOTH STX and ETX are enabled, and
rule (3) requires only that the buffer extend past the length-field
offset, reading as zero a 2-byte length field whose second byte has not
arrived (and any length-field size other than 1 or 2). -/
theorem claim_C3_amended_custom_completion (cfg : CustomProtocolConfig)
    (data : List Nat) (now last : Nat) :
    is_frame_complete (.custom cfg) data now last =
      customCompleteAmended cfg data := by
  unfold is_frame_complete customCompleteAmended
  dsimp only
  by_cases h0 : data.length = 0
  · simp [h0]
  · rw [if_neg h0, ite_true_or, ite_true_or, ite_false_and, ite_false_and]
    have hlen : decide (data.length ≠ 0) = true := by simpa using h0
    rw [hlen, Bool.true_and]
    simp only [Bool.decide_and, Bool.decide_coe, Bool.or_assoc, Bool.and_assoc]

/-- C3 amended witness: a two-byte buffer matching an enabled two-byte
ETX (with STX also enabled) completes, exactly as the amended
disjunction says. -/
theorem claim_C3_amended_custom_completion_witness :
    is_frame_complete
      (.custom ⟨0, true, 2, true, 0x0D0A, false, 0, 0, false, .none_, 0, 0, 0, 0⟩)
      [0x0D, 0x0A] 0 0 =
      customCompleteAmended
        ⟨0, true, 2, true, 0x0D0A, false, 0, 0, false, .none_, 0, 0, 0, 0⟩
        [0x0D, 0x0A] ∧
    customCompleteAmended
      ⟨0, true, 2, true, 0x0D0A, false, 0, 0, false, .none_, 0, 0, 0, 0⟩
      [0x0D, 0x0A] = true :=
  ⟨claim_C3_amended_custom_completion _ _ 0 0, by decide⟩

/-- C8 witness: starting from a freshly initialised instrumented state,
a run that reconfigures mid-frame and then receives a complete NMEA
sentence keeps the invariant: every delivered frame is
single-generation. -/
theorem claim_C8_hot_reconfig_discards_witness :
    GenInvariant ⟨0, 0, 0, false,
      .custom ⟨0, false, 0, false, 0, false, 0, 0, false, .none_, 0, 0, 0, 0⟩,
      [], 0, []⟩ ∧
    ∀ f ∈ (t_run ⟨0, 0, 0, false,
      .custom ⟨0, false, 0, false, 0, false, 0, 0, false, .none_, 0, 0, 0, 0⟩,
      [], 0, []⟩
      [.data 1 [0x24, 0x41], .update (.nmea_0183 ⟨0, [], false, []⟩),
       .data 2 [0x24, 0x42, 0x2A, 0x30, 0x30, 0x0D, 0x0A]]).delivered,
      SingleGen f :=
  ⟨⟨by decide, by decide⟩,
   (claim_C8_hot_reconfig_discards.2.2 _ _ ⟨by decide, by decide⟩).2⟩

/-- Helper: `getD` through `mapIdx` at an in-range index. -/
theorem getD_mapIdx {α : Type} (l : List α) (f : Nat → α → α) (i : Nat)
    (d : α) (hi : i < l.length) :
    (l.mapIdx f).getD i d = f i (l.getD i d) := by
  have hi2 : i < (l.mapIdx f).length := by
    rw [List.length_mapIdx]; exact hi
  rw [List.getD_eq_getElem _ _ hi2, List.getD_eq_getElem _ _ hi]
  have h := List.get_mapIdx l f i hi
  simp only [List.get_eq_getElem] at h
  exact h

/-- Helper: the successful-return shape of `data_parser_parse_frame`. -/
theorem parse_frame_eq_some (dd : DataDefinition) (buf : List Nat)
    (raw_len : Nat) (fields : List ParsedField) (max_fields : Nat)
    (hfc : dd.field_count ≠ 0) (hoff : dd.data_offset < raw_len) :
    data_parser_parse_frame dd buf raw_len fields max_fields =
      some (fields.mapIdx
        (fun i old => if i < min dd.field_count max_fields then
          parse_one dd buf (raw_len - dd.data_offset) i old else old),
        min dd.field_count max_fields) := by
  unfold data_parser_parse_frame
  rw [if_neg hfc, if_neg (by omega)]

/-- Helper: the output entry at an in-range index of a successful
parse. -/
theorem parse_frame_getD (dd : DataDefinition) (buf : List Nat)
    (raw_len : Nat) (fields : List ParsedField) (max_fields : Nat)
    (out : List ParsedField) (count : Nat)
    (hout : data_parser_parse_frame dd buf raw_len fields max_fields =
      some (out, count))
    (i : Nat) (hi : i < count) (hlen : i < fields.length) :
    count = min dd.field_count max_fields ∧
    out.getD i ParsedField.zeroInit =
      parse_one dd buf (raw_len - dd.data_offset) i
        (fields.getD i ParsedField.zeroInit) := by
  have hfc : dd.field_count ≠ 0 := by
    intro h
    rw [data_parser_parse_frame, if_pos h] at hout
    exact Option.noConfusion hout
  have hoff : dd.data_offset < raw_len := by
    by_contra h
    rw [data_parser_parse_frame, if_neg hfc, if_pos (by omega)] at hout
    exact Option.noConfusion hout
  rw [parse_frame_eq_some dd buf raw_len fields max_fields hfc hoff] at hout
  simp only [Option.some.injEq, Prod.mk.injEq] at hout
  obtain ⟨hfields, hcount⟩ := hout
  subst hcount
  refine ⟨rfl, ?_⟩
  rw [← hfields, getD_mapIdx _ _ _ _ hlen, if_pos hi]

/-- C6: for every decoded field of a type other than string and
hex-string, the output `scaled_value` is
`raw_numeric_value * (scale_factor/1000) + offset_value/100`, with the
multiplier replaced by 1 exactly when `scale_factor` is zero; in
particular `scale_factor = 1000` with `offset_value = 0` reproduces the
raw value, and `scale_factor = 0` acts as ×1, not ×0. -/
theorem claim_C6_scaling (dd : DataDefinition) (buf : List Nat)
    (raw_len : Nat) (fields : List ParsedField) (max_fields : Nat)
    (out : List ParsedField) (count : Nat)
    (hout : data_parser_parse_frame dd buf raw_len fields max_fields =
      some (out, count))
    (i : Nat) (hi : i < count) (hlen : i < fields.length)
    (hty : (dd.fields.getD i FieldDefinition.zero).field_type ≠ 0x30 ∧
           (dd.fields.getD i FieldDefinition.zero).field_type ≠ 0x31)
    (hrange : (dd.fields.getD i FieldDefinition.zero).start_offset <
      raw_len - dd.data_offset) :
    ((out.getD i ParsedField.zeroInit).scaled_value =
      (parse_field_value (dd.fields.getD i FieldDefinition.zero) buf
        dd.data_offset (raw_len - dd.data_offset)).2 *
        (if (dd.fields.getD i FieldDefinition.zero).scale_factor = 0 then 1
         else ((dd.fields.getD i FieldDefinition.zero).scale_factor : ℚ) / 1000) +
        ((dd.fields.getD i FieldDefinition.zero).offset_value : ℚ) / 100) ∧
    ((dd.fields.getD i FieldDefinition.zero).scale_factor = 1000 →
     (dd.fields.getD i FieldDefinition.zero).offset_value = 0 →
      (out.getD i ParsedField.zeroInit).scaled_value =
        (parse_field_value (dd.fields.getD i FieldDefinition.zero) buf
          dd.data_offset (raw_len - dd.data_offset)).2) ∧
    ((dd.fields.getD i FieldDefinition.zero).scale_factor = 0 →
     (dd.fields.getD i FieldDefinition.zero).offset_value = 0 →
      (out.getD i ParsedField.zeroInit).scaled_value =
        (parse_field_value (dd.fields.getD i FieldDefinition.zero) buf
          dd.data_offset (raw_len - dd.data_offset)).2) := by
  obtain ⟨-, hgetD⟩ := parse_frame_getD dd buf raw_len fields max_fields
    out count hout i hi hlen
  set fd := dd.fields.getD i FieldDefinition.zero with hfd
  have hscaled : (out.getD i ParsedField.zeroInit).scaled_value =
      apply_scale (parse_field_value fd buf dd.data_offset
        (raw_len - dd.data_offset)).2 fd := by
    rw [hgetD]
    unfold parse_one
    rw [← hfd, if_neg (by omega)]
    dsimp only
    rw [if_pos hty]
  have hform : apply_scale (parse_field_value fd buf dd.data_offset
      (raw_len - dd.data_offset)).2 fd =
      (parse_field_value fd buf dd.data_offset (raw_len - dd.data_offset)).2 *
        (if fd.scale_factor = 0 then 1 else (fd.scale_factor : ℚ) / 1000) +
        (fd.offset_value : ℚ) / 100 := by
    unfold apply_scale
    dsimp only
    by_cases hz : fd.scale_factor = 0
    · rw [if_pos (by rw [hz]; norm_num), if_pos hz]
    · rw [if_neg (by
        simp only [div_eq_zero_iff]
        push_neg
        exact ⟨by exact_mod_cast hz, by norm_num⟩), if_neg hz]
  refine ⟨hscaled.trans hform, ?_, ?_⟩
  · intro h1000 h0
    rw [hscaled, hform, if_neg (by omega), h1000, h0]
    norm_num
  · intro hz h0
    rw [hscaled, hform, if_pos hz, h0]
    norm_num

/-- C6 witness: a one-field definition (u8 at offset 0, scale factor
1000, offset 0) over the frame `[42]` yields a `scaled_value` equal to
the raw value 42; the same definition with scale factor 0 also yields
42 — ×1.0, not ×0. -/
theorem claim_C6_scaling_witness :
    (∃ out count,
      data_parser_parse_frame ⟨1, 0, [⟨0x01, 0, 0, 0, 8, 1000, 0, 0, 0⟩], [], 0⟩
        [42] 1 [ParsedField.zeroInit] 4 = some (out, count) ∧
      (out.getD 0 ParsedField.zeroInit).scaled_value = 42) ∧
    (∃ out count,
      data_parser_parse_frame ⟨1, 0, [⟨0x01, 0, 0, 0, 8, 0, 0, 0, 0⟩], [], 0⟩
        [42] 1 [ParsedField.zeroInit] 4 = some (out, count) ∧
      (out.getD 0 ParsedField.zeroInit).scaled_value = 42) := by
  constructor
  · refine ⟨_, _, rfl, ?_⟩
    have h := claim_C6_scaling ⟨1, 0, [⟨0x01, 0, 0, 0, 8, 1000, 0, 0, 0⟩], [], 0⟩
      [42] 1 [ParsedField.zeroInit] 4 _ _ rfl 0 (by decide) (by decide)
      (by decide) (by decide)
    refine (h.2.1 rfl rfl).trans ?_
    decide
  · refine ⟨_, _, rfl, ?_⟩
    have h := claim_C6_scaling ⟨1, 0, [⟨0x01, 0, 0, 0, 8, 0, 0, 0, 0⟩], [], 0⟩
      [42] 1 [ParsedField.zeroInit] 4 _ _ rfl 0 (by decide) (by decide)
      (by decide) (by decide)
    refine (h.2.2 rfl rfl).trans ?_
    decide

/-- Helper: `getD` of a `replicate` at an in-range index. -/
theorem getD_replicate_of_lt {α : Type} (n i : Nat) (a d : α) (h : i < n) :
    (List.replicate n a).getD i d = a := by
  rw [List.getD_eq_getElem _ _ (by simpa using h), List.getElem_replicate]

/-- C7: an out-of-range field is isolated. When field `k` of the
definition has `start_offset` at or beyond the payload length, the
whole-frame parse still succeeds, field `k` keeps the zero-initialised
value and scaled value of the caller's array (only its name and type
are filled in), and every other field of the output array is exactly
what the per-field decode produces for it. -/
theorem claim_C7_out_of_range_field_isolated (dd : DataDefinition)
    (buf : List Nat) (raw_len n max_fields : Nat)
    (hfc : dd.field_count ≠ 0) (hoff : dd.data_offset < raw_len)
    (k : Nat) (hk : k < min dd.field_count max_fields)
    (hn : min dd.field_count max_fields ≤ n)
    (hkrange : (dd.fields.getD k FieldDefinition.zero).start_offset ≥
      raw_len - dd.data_offset) :
    ∃ out, data_parser_parse_frame dd buf raw_len
        (List.replicate n ParsedField.zeroInit) max_fields =
        some (out, min dd.field_count max_fields) ∧
      out.getD k ParsedField.zeroInit =
        { ParsedField.zeroInit with
            name := data_parser_get_field_name dd k,
            type := (dd.fields.getD k FieldDefinition.zero).field_type } ∧
      (out.getD k ParsedField.zeroInit).value = FieldValue.zero ∧
      (out.getD k ParsedField.zeroInit).scaled_value = 0 ∧
      ∀ j, j < min dd.field_count max_fields → j ≠ k →
        out.getD j ParsedField.zeroInit =
          parse_one dd buf (raw_len - dd.data_offset) j ParsedField.zeroInit := by
  refine ⟨_, parse_frame_eq_some dd buf raw_len _ max_fields hfc hoff, ?_, ?_, ?_, ?_⟩
  · rw [getD_mapIdx _ _ _ _ (by rw [List.length_replicate]; omega), if_pos hk,
      getD_replicate_of_lt _ _ _ _ (by omega)]
    unfold parse_one
    rw [if_pos hkrange]
  · rw [getD_mapIdx _ _ _ _ (by rw [List.length_replicate]; omega), if_pos hk,
      getD_replicate_of_lt _ _ _ _ (by omega)]
    unfold parse_one
    rw [if_pos hkrange]
    rfl
  · rw [getD_mapIdx _ _ _ _ (by rw [List.length_replicate]; omega), if_pos hk,
      getD_replicate_of_lt _ _ _ _ (by omega)]
    unfold parse_one
    rw [if_pos hkrange]
    rfl
  · intro j hj hne
    rw [getD_mapIdx _ _ _ _ (by rw [List.length_replicate]; omega), if_pos hj,
      getD_replicate_of_lt _ _ _ _ (by omega)]

/-- C7 witness: a definition with 5 u8 fields at payload offsets
0, 1, 99, 3, 4 over the 5-byte frame `[10, 11, 12, 13, 14]`: the parse
succeeds, field 2 stays at its zero default, and fields 0, 1, 3, 4
decode to 10, 11, 13, 14. -/
theorem claim_C7_out_of_range_field_isolated_witness :
    ∃ out, data_parser_parse_frame
        ⟨5, 0, [⟨0x01, 0, 0, 0, 8, 1000, 0, 0, 0⟩, ⟨0x01, 0, 1, 0, 8, 1000, 0, 0, 0⟩,
                ⟨0x01, 0, 99, 0, 8, 1000, 0, 0, 0⟩, ⟨0x01, 0, 3, 0, 8, 1000, 0, 0, 0⟩,
                ⟨0x01, 0, 4, 0, 8, 1000, 0, 0, 0⟩], [], 0⟩
        [10, 11, 12, 13, 14] 5 (List.replicate 5 ParsedField.zeroInit) 8 =
        some (out, 5) ∧
      (out.getD 2 ParsedField.zeroInit).value = FieldValue.zero ∧
      (out.getD 2 ParsedField.zeroInit).scaled_value = 0 ∧
      (out.getD 0 ParsedField.zeroInit).value = .u8 10 ∧
      (out.getD 1 ParsedField.zeroInit).value = .u8 11 ∧
      (out.getD 3 ParsedField.zeroInit).value = .u8 13 ∧
      (out.getD 4 ParsedField.zeroInit).value = .u8 14 := by
  obtain ⟨out, h1, h2, h3, h4, h5⟩ := claim_C7_out_of_range_field_isolated
    ⟨5, 0, [⟨0x01, 0, 0, 0, 8, 1000, 0, 0, 0⟩, ⟨0x01, 0, 1, 0, 8, 1000, 0, 0, 0⟩,
            ⟨0x01, 0, 99, 0, 8, 1000, 0, 0, 0⟩, ⟨0x01, 0, 3, 0, 8, 1000, 0, 0, 0⟩,
            ⟨0x01, 0, 4, 0, 8, 1000, 0, 0, 0⟩], [], 0⟩
    [10, 11, 12, 13, 14] 5 5 8 (by decide) (by decide) 2 (by decide) (by decide)
    (by decide)
  refine ⟨out, h1, h3, h4, ?_, ?_, ?_, ?_⟩
  · rw [h5 0 (by decide) (by decide)]; decide
  · rw [h5 1 (by decide) (by decide)]; decide
  · rw [h5 3 (by decide) (by decide)]; decide
  · rw [h5 4 (by decide) (by decide)]; decide

/-- Helper: two buffers agreeing on their first `n` entries agree at
`getD` for every index below `n`. -/
theorem getD_agree_of_take_eq {buf buf2 : List Nat} {n : Nat}
    (h : buf.take n = buf2.take n) (idx : Nat) (hidx : idx < n) :
    buf.getD idx 0 = buf2.getD idx 0 := by
  have hb1 : (buf.take n)[idx]? = buf[idx]? := List.getElem?_take_of_lt hidx
  have hb2 : (buf2.take n)[idx]? = buf2[idx]? := List.getElem?_take_of_lt hidx
  rw [List.getD_eq_getElem?_getD, List.getD_eq_getElem?_getD, ← hb1, ← hb2, h]

/-- Helper: `read_bytes` only looks at the `size` bytes starting at
`base + offset`. -/
theorem read_bytes_congr {buf buf2 : List Nat} {base offset size : Nat}
    (big : Bool)
    (h : ∀ j, j < size → buf.getD (base + offset + j) 0 =
      buf2.getD (base + offset + j) 0) :
    read_bytes buf base offset size big = read_bytes buf2 base offset size big := by
  unfold read_bytes
  cases big
  · rw [if_neg (by simp), if_neg (by simp)]
    exact List.foldl_ext _ _ _ (fun v j hj => by rw [h j (List.mem_range.1 hj)])
  · rw [if_pos rfl, if_pos rfl]
    exact List.foldl_ext _ _ _ (fun v j hj => by rw [h j (List.mem_range.1 hj)])

/-- Helper: the per-type decode only looks at bytes of the received
frame, provided multi-byte numeric fields fit inside the payload. -/
theorem parse_field_value_congr (fd : FieldDefinition) (buf buf2 : List Nat)
    (base data_len : Nat)
    (hw : ∀ w, numericWidth fd.field_type = some w →
      fd.start_offset + w ≤ data_len)
    (hag : ∀ idx, idx < base + data_len →
      buf.getD idx 0 = buf2.getD idx 0)
    (hs : fd.start_offset < data_len) :
    parse_field_value fd buf base data_len =
      parse_field_value fd buf2 base data_len := by
  have h1 : buf.getD (base + fd.start_offset) 0 =
      buf2.getD (base + fd.start_offset) 0 := hag _ (by omega)
  have hrb : ∀ w, numericWidth fd.field_type = some w →
      read_bytes buf base fd.start_offset w (fd.byte_order ≠ 0) =
        read_bytes buf2 base fd.start_offset w (fd.byte_order ≠ 0) := by
    intro w hwidth
    exact read_bytes_congr _ (fun j hj => hag _ (by have := hw w hwidth; omega))
  delta parse_field_value
  by_cases e0 : fd.field_type = 0
  · rw [if_pos e0, if_pos e0]
    dsimp only; rw [h1]
  rw [if_neg e0, if_neg e0]
  by_cases e1 : fd.field_type = 1
  · rw [if_pos e1, if_pos e1]
    dsimp only; rw [h1]
  rw [if_neg e1, if_neg e1]
  by_cases e2 : fd.field_type = 2
  · rw [if_pos e2, if_pos e2]
    dsimp only; rw [h1]
  rw [if_neg e2, if_neg e2]
  by_cases e3 : fd.field_type = 3
  · rw [if_pos e3, if_pos e3]
    dsimp only; rw [hrb 2 (by rw [e3]; rfl)]
  rw [if_neg e3, if_neg e3]
  by_cases e4 : fd.field_type = 4
  · rw [if_pos e4, if_pos e4]
    dsimp only; rw [hrb 2 (by rw [e4]; rfl)]
  rw [if_neg e4, if_neg e4]
  by_cases e5 : fd.field_type = 5
  · rw [if_pos e5, if_pos e5]
    dsimp only; rw [hrb 4 (by rw [e5]; rfl)]
  rw [if_neg e5, if_neg e5]
  by_cases e6 : fd.field_type = 6
  · rw [if_pos e6, if_pos e6]
    dsimp only; rw [hrb 4 (by rw [e6]; rfl)]
  rw [if_neg e6, if_neg e6]
  by_cases e7 : fd.field_type = 7
  · rw [if_pos e7, if_pos e7]
    dsimp only; rw [hrb 8 (by rw [e7]; rfl)]
  rw [if_neg e7, if_neg e7]
  by_cases e8 : fd.field_type = 8
  · rw [if_pos e8, if_pos e8]
    dsimp only; rw [hrb 8 (by rw [e8]; rfl)]
  rw [if_neg e8, if_neg e8]
  by_cases e9 : fd.field_type = 16
  · rw [if_pos e9, if_pos e9]
    dsimp only; rw [hrb 4 (by rw [e9]; rfl)]
  rw [if_neg e9, if_neg e9]
  by_cases e10 : fd.field_type = 17
  · rw [if_pos e10, if_pos e10]
    dsimp only; rw [hrb 8 (by rw [e10]; rfl)]
  rw [if_neg e10, if_neg e10]
  by_cases e11 : fd.field_type = 32
  · rw [if_pos e11, if_pos e11]
    dsimp only
    have hb : ∀ (r : Nat) (j : Nat),
        j ∈ List.range (min ((fd.bit_length + 7) / 8) (data_len - fd.start_offset)) →
        (fun r j =>
          (r * 100 + ((buf.getD (base + fd.start_offset + j) 0 >>> 4) * 10 +
            (buf.getD (base + fd.start_offset + j) 0 &&& 0x0F))) % 2 ^ 64) r j =
        (fun r j =>
          (r * 100 + ((buf2.getD (base + fd.start_offset + j) 0 >>> 4) * 10 +
            (buf2.getD (base + fd.start_offset + j) 0 &&& 0x0F))) % 2 ^ 64) r j := by
      intro r j hj
      have hj2 := List.mem_range.1 hj
      dsimp only
      rw [hag (base + fd.start_offset + j) (by omega)]
    rw [List.foldl_ext _ _ _ hb]
  rw [if_neg e11, if_neg e11]
  by_cases e12 : fd.field_type = 48
  · rw [if_pos e12, if_pos e12]
    dsimp only
    have harg : ∀ str_len, str_len ≤ data_len - fd.start_offset →
        (List.range str_len).map (fun j => buf.getD (base + fd.start_offset + j) 0) =
        (List.range str_len).map (fun j => buf2.getD (base + fd.start_offset + j) 0) := by
      intro str_len hsl
      refine List.map_congr_left (fun j hj => ?_)
      have hj2 := List.mem_range.1 hj
      exact hag (base + fd.start_offset + j) (by omega)
    split
    · rw [harg _ (by omega)]
    · next hclip => rw [harg _ (by omega)]
  rw [if_neg e12, if_neg e12]
  by_cases e13 : fd.field_type = 49
  · rw [if_pos e13, if_pos e13]
    dsimp only
    have hb : ∀ (acc : List Nat) (j : Nat),
        j ∈ List.range (min (min (fd.bit_length / 8) 31) (data_len - fd.start_offset)) →
        (fun acc j =>
          acc ++ [hexChar ((buf.getD (base + fd.start_offset + j) 0 >>> 4) % 16),
                  hexChar (buf.getD (base + fd.start_offset + j) 0 &&& 0x0F)]) acc j =
        (fun acc j =>
          acc ++ [hexChar ((buf2.getD (base + fd.start_offset + j) 0 >>> 4) % 16),
                  hexChar (buf2.getD (base + fd.start_offset + j) 0 &&& 0x0F)]) acc j := by
      intro acc j hj
      have hj2 := List.mem_range.1 hj
      dsimp only
      rw [hag (base + fd.start_offset + j) (by omega)]
    rw [List.foldl_ext _ _ _ hb]
  rw [if_neg e13, if_neg e13]
  by_cases e14 : fd.field_type = 64
  · rw [if_pos e14, if_pos e14]
    dsimp only; rw [hrb 4 (by rw [e14]; rfl)]
  rw [if_neg e14, if_neg e14]
  by_cases e15 : fd.field_type = 65
  · rw [if_pos e15, if_pos e15]
    dsimp only; rw [hrb 8 (by rw [e15]; rfl)]
  rw [if_neg e15, if_neg e15]

/-- Helper: one loop iteration of the parser only looks at bytes of the
received frame, under the same width condition. -/
theorem parse_one_congr (dd : DataDefinition) (buf buf2 : List Nat)
    (data_len i : Nat) (old : ParsedField)
    (hw : ∀ w, numericWidth (dd.fields.getD i FieldDefinition.zero).field_type =
      some w → (dd.fields.getD i FieldDefinition.zero).start_offset < data_len →
      (dd.fields.getD i FieldDefinition.zero).start_offset + w ≤ data_len)
    (hag : ∀ idx, idx < dd.data_offset + data_len →
      buf.getD idx 0 = buf2.getD idx 0) :
    parse_one dd buf data_len i old = parse_one dd buf2 data_len i old := by
  unfold parse_one
  dsimp only
  by_cases hge : (dd.fields.getD i FieldDefinition.zero).start_offset ≥ data_len
  · rw [if_pos hge, if_pos hge]
  · rw [if_neg hge, if_neg hge,
      parse_field_value_congr _ buf buf2 _ _
        (fun w hwn => hw w hwn (by omega)) hag (by omega)]

/-- Helper: `mapIdx` congruence for functions agreeing below the list
length. -/
theorem mapIdx_congr_lt {α : Type} (l : List α) (f g : Nat → α → α)
    (h : ∀ i, i < l.length → ∀ a, f i a = g i a) :
    l.mapIdx f = l.mapIdx g := by
  rw [List.mapIdx_eq_ofFn, List.mapIdx_eq_ofFn]
  congr 1
  funext i
  exact h i i.2 _

set_option maxRecDepth 4000 in
/-- C9 counterexample: a u16 field at payload offset 0 passes the
parser's only bound check (`start_offset < data_len`) for a 1-byte
frame, yet its decode reads the byte at index 1 — one past the end of
the received frame — so the parse result depends on buffer content
beyond the frame: the claim that no decode ever indexes past the frame
end is false. -/
theorem claim_C9_overread_counterexample :
    List.take 1 [7] = List.take 1 ([7, 255] : List Nat) ∧
    data_parser_parse_frame ⟨1, 0, [⟨0x03, 0, 0, 0, 16, 1000, 0, 0, 0⟩], [], 0⟩
        [7] 1 [ParsedField.zeroInit] 4 ≠
      data_parser_parse_frame ⟨1, 0, [⟨0x03, 0, 0, 0, 16, 1000, 0, 0, 0⟩], [], 0⟩
        [7, 255] 1 [ParsedField.zeroInit] 4 := by
  decide

/-- C9 (amended): the parser's guard checks only the first byte of a
field; decode reads stay within the received frame exactly when every
decoded multi-byte numeric field additionally satisfies
`start_offset + width ≤ payload length`. Under that condition the
whole parse depends only on the first `raw_len` bytes of the underlying
buffer — no decode reads past the end of the received frame. -/
theorem claim_C9_amended_reads_bounded (dd : DataDefinition)
    (buf buf2 : List Nat) (raw_len : Nat) (fields : List ParsedField)
    (max_fields : Nat)
    (hw : ∀ i, i < min dd.field_count max_fields →
      ∀ w, numericWidth (dd.fields.getD i FieldDefinition.zero).field_type =
        some w →
      (dd.fields.getD i FieldDefinition.zero).start_offset <
        raw_len - dd.data_offset →
      (dd.fields.getD i FieldDefinition.zero).start_offset + w ≤
        raw_len - dd.data_offset)
    (hagree : buf.take raw_len = buf2.take raw_len) :
    data_parser_parse_frame dd buf raw_len fields max_fields =
      data_parser_parse_frame dd buf2 raw_len fields max_fields := by
  by_cases hfc : dd.field_count = 0
  · unfold data_parser_parse_frame
    rw [if_pos hfc, if_pos hfc]
  · by_cases hoff : dd.data_offset ≥ raw_len
    · unfold data_parser_parse_frame
      rw [if_neg hfc, if_neg hfc, if_pos hoff, if_pos hoff]
    · rw [parse_frame_eq_some dd buf raw_len fields max_fields hfc (by omega),
        parse_frame_eq_some dd buf2 raw_len fields max_fields hfc (by omega)]
      have hag : ∀ idx, idx < dd.data_offset + (raw_len - dd.data_offset) →
          buf.getD idx 0 = buf2.getD idx 0 := by
        intro idx hidx
        exact getD_agree_of_take_eq hagree idx (by omega)
      have hx : fields.mapIdx
          (fun i old => if i < min dd.field_count max_fields then
            parse_one dd buf (raw_len - dd.data_offset) i old else old) =
          fields.mapIdx
          (fun i old => if i < min dd.field_count max_fields then
            parse_one dd buf2 (raw_len - dd.data_offset) i old else old) := by
        refine mapIdx_congr_lt _ _ _ (fun i hi a => ?_)
        by_cases hcount : i < min dd.field_count max_fields
        · rw [if_pos hcount, if_pos hcount,
            parse_one_congr dd buf buf2 _ i a (hw i hcount) hag]
        · rw [if_neg hcount, if_neg hcount]
      rw [hx]

/-- C9 amended witness: with the u16 field widened to fit
(`start_offset + 2 ≤ payload length`, frame of 2 bytes), the parse
result no longer depends on bytes beyond the frame. -/
theorem claim_C9_amended_reads_bounded_witness :
    data_parser_parse_frame ⟨1, 0, [⟨0x03, 0, 0, 0, 16, 1000, 0, 0, 0⟩], [], 0⟩
        [7, 1] 2 [ParsedField.zeroInit] 4 =
      data_parser_parse_frame ⟨1, 0, [⟨0x03, 0, 0, 0, 16, 1000, 0, 0, 0⟩], [], 0⟩
        [7, 1, 255] 2 [ParsedField.zeroInit] 4 :=
  claim_C9_amended_reads_bounded
    ⟨1, 0, [⟨0x03, 0, 0, 0, 16, 1000, 0, 0, 0⟩], [], 0⟩
    [7, 1] [7, 1, 255] 2 [ParsedField.zeroInit] 4 (by decide) (by decide)

end RS232
